import Mathlib

/-!
Shallow embedding of the orchestration core of the kali-agents-mcp
repository: the supervisor agent of src/agents/supervisor.py (request
classification, execution planning, plan execution, finding extraction,
learning integration) and the adaptation algorithms of
src/models/ml_algorithms.py (genetic algorithm, Q-learning epsilon
schedule, pattern similarity), over the data model of src/models/core.py.

Modelling conventions: Python floats are rationals, Python dicts are
association lists, the random module is an abstract triple of draw
streams, and wall-clock durations are passed in as parameters (they are
the only inputs the code reads from the environment).  The external tool
collaborator is an abstract function from tool name to a structured
result or an error, matching the boundary contract of the spec.
-/

namespace KaliAgents

/-- TaskStatus enumeration from src/models/core.py (values pending,
assigned, in_progress, completed, failed, cancelled,
requires_adaptation). -/
inductive TaskStatus where
  | pending
  | assigned
  | inProgress
  | completed
  | failed
  | cancelled
  | requiresAdaptation
deriving DecidableEq, Repr

/-- Priority enumeration from src/models/core.py (LOW=1, MEDIUM=3,
HIGH=7, CRITICAL=10). -/
inductive Priority where
  | low
  | medium
  | high
  | critical
deriving DecidableEq, Repr

/-- Numeric value of a Priority, as in the Python enum. -/
def Priority.val : Priority → ℕ
  | .low => 1
  | .medium => 3
  | .high => 7
  | .critical => 10

/-- PerformanceMetrics dataclass from src/models/core.py.  The
resource_usage dict is omitted: it is never written by the supervisor
and plays no role in any claim. -/
structure PerformanceMetrics where
  execution_time : ℚ := 0
  success_rate : ℚ := 0
  accuracy : ℚ := 0
  error_count : ℕ := 0
  improvement_rate : ℚ := 0
  confidence_score : ℚ := 0
deriving DecidableEq, Repr

/-- Boolean test that the character list l starts with the character
list pat (helper for the Python substring operator). -/
def charsStarts : List Char → List Char → Bool
  | [], _ => true
  | _ :: _, [] => false
  | p :: ps, c :: cs => p == c && charsStarts ps cs

/-- Boolean test that pat occurs as a contiguous segment of l (helper
for the Python substring operator). -/
def charsContains (pat : List Char) : List Char → Bool
  | [] => pat.isEmpty
  | c :: cs => charsStarts pat (c :: cs) || charsContains pat cs

/-- The Python expression pat in s on strings: substring containment. -/
def strContains (s pat : String) : Bool :=
  charsContains pat.data s.data

/-- The Python str.lower call, as the per-character lower-case map on
the underlying character list (Python and Lean agree on the ASCII
keywords the supervisor matches). -/
def strToLower (s : String) : String := String.mk (s.data.map Char.toLower)

/-- The classification-relevant projection of a Task built by
SupervisorAgent._analyze_and_create_task: its task_type, priority and
target parameter. -/
structure ClassifiedTask where
  task_type : String
  priority : Priority
  target : String
deriving DecidableEq, Repr

/-- The Python expression params.get(key, dflt) on a string-valued
dict, with the dict modelled as an association list. -/
def dictGetD (params : List (String × String)) (key dflt : String) : String :=
  (params.lookup key).getD dflt

/-- SupervisorAgent._analyze_and_create_task from
src/agents/supervisor.py, lines 91-122: lower-case the request text,
pick task_type and priority by first-match keyword tests, and read the
target from parameters with default localhost. -/
def analyzeAndCreateTask (request : String) (parameters : List (String × String)) :
    ClassifiedTask :=
  let request_lower := strToLower request
  let tp :=
    if strContains request_lower "pentest" || strContains request_lower "penetration test" then
      ("penetration_test", Priority.high)
    else if strContains request_lower "scan" || strContains request_lower "recon" then
      ("network_scan", Priority.medium)
    else if strContains request_lower "web" then
      ("web_assessment", Priority.medium)
    else
      ("general_assessment", Priority.medium)
  { task_type := tp.1, priority := tp.2,
    target := dictGetD parameters "target" "localhost" }

/-- One step descriptor of an execution plan, as the dict literals in
SupervisorAgent._create_execution_plan. -/
structure PlanStep where
  step : ℕ
  name : String
  agent : String
  tools : List String
  estimated_time : ℚ
deriving DecidableEq, Repr

/-- TaskExecutionPlan dataclass from src/models/core.py, restricted to
the fields the supervisor writes (task_id, dependencies, risk data and
fallback plans are left at their defaults and never read). -/
structure TaskExecutionPlan where
  steps : List PlanStep
  assigned_agents : List String
  estimated_duration : ℚ
deriving DecidableEq, Repr

/-- The step lists hard-coded in SupervisorAgent._create_execution_plan,
lines 128-152, selected by task_type. -/
def planStepsFor (task_type : String) : List PlanStep :=
  if task_type = "penetration_test" then
    [⟨1, "Network Reconnaissance", "network_agent", ["nmap_scan", "network_discovery"], 300⟩,
     ⟨2, "Web Assessment", "web_agent", ["gobuster_directory", "nikto_scan"], 600⟩,
     ⟨3, "Vulnerability Analysis", "vulnerability_agent", ["sqlmap_test"], 720⟩,
     ⟨4, "Report Generation", "report_agent", ["generate_report"], 180⟩]
  else if task_type = "network_scan" then
    [⟨1, "Network Discovery", "network_agent", ["network_discovery", "nmap_scan"], 240⟩]
  else if task_type = "web_assessment" then
    [⟨1, "Web Reconnaissance", "web_agent", ["gobuster_directory", "web_technology_detection"], 360⟩,
     ⟨2, "Vulnerability Scanning", "web_agent", ["nikto_scan", "sqlmap_test"], 600⟩]
  else []

/-- SupervisorAgent._create_execution_plan, lines 124-158: build the
plan record with assigned_agents the per-step agent list and
estimated_duration the sum of the per-step estimates. -/
def createExecutionPlan (task_type : String) : TaskExecutionPlan :=
  let plan_steps := planStepsFor task_type
  { steps := plan_steps,
    assigned_agents := plan_steps.map (fun s => s.agent),
    estimated_duration := (plan_steps.map (fun s => s.estimated_time)).sum }

/-- One port entry of a hosts map in a tool result, mirroring the dict
shape consumed by _extract_findings_from_results (state and service are
read with .get, so they are optional). -/
structure PortInfo where
  port : ℕ
  protocol : String := "tcp"
  service : Option String := none
  state : Option String := none
deriving DecidableEq, Repr

/-- One host entry of a hosts map in a tool result. -/
structure HostInfo where
  status : String := "up"
  ports : List PortInfo := []
deriving DecidableEq, Repr

/-- One entry of a vulnerabilities list in a tool result (id, msg and
severity are read with .get, so they are optional).  The id key is
named vid here because id is taken in Lean. -/
structure VulnEntry where
  vid : Option String := none
  msg : Option String := none
  severity : Option String := none
deriving DecidableEq, Repr

/-- One entry of a discovered_paths list in a tool result (status_code
is read with .get, so it is optional). -/
structure PathEntry where
  path : String
  status_code : Option ℕ := none
  size : ℕ := 0
deriving DecidableEq, Repr

/-- The shape families of a tool result dict that
_extract_findings_from_results recognizes: a hosts map, a
vulnerabilities list and a discovered_paths list; each key may be
absent.  All other keys of a result are never read by the extraction
and are not modelled. -/
structure ToolResult where
  hosts : Option (List (String × HostInfo)) := none
  vulnerabilities : Option (List VulnEntry) := none
  discovered_paths : Option (List PathEntry) := none
deriving DecidableEq, Repr

/-- A finding dict as appended by _extract_findings_from_results: a
type tag, a severity, and the type-specific keys (absent keys are
none). -/
structure Finding where
  ftype : String
  severity : String
  host : Option String := none
  port : Option ℕ := none
  service : Option String := none
  description : Option String := none
  reference : Option String := none
  path : Option String := none
  status_code : Option ℕ := none
deriving DecidableEq, Repr

/-- The open-port findings produced for one host entry of a hosts map:
one finding per port whose state is exactly open, with severity info
and service defaulting to unknown (supervisor.py lines 307-317). -/
def portFindings (host : String) (hi : HostInfo) : List Finding :=
  (hi.ports.filter (fun p => p.state == some "open")).map (fun p =>
    { ftype := "open_port", severity := "info", host := some host,
      port := some p.port, service := some (p.service.getD "unknown") })

/-- The open-port findings of a whole hosts map (supervisor.py lines
307-317). -/
def hostsFindings (hs : List (String × HostInfo)) : List Finding :=
  hs.flatMap (fun hp => portFindings hp.1 hp.2)

/-- The web-vulnerability findings of a vulnerabilities list: one per
entry, severity taken from the entry with default info (supervisor.py
lines 320-327). -/
def vulnFindings (vs : List VulnEntry) : List Finding :=
  vs.map (fun v =>
    { ftype := "web_vulnerability", severity := v.severity.getD "info",
      description := some (v.msg.getD ""), reference := some (v.vid.getD "") })

/-- The interesting-path findings of a discovered_paths list: one per
path whose status_code is exactly 200, all others silently dropped
(supervisor.py lines 330-338). -/
def pathFindings (ps : List PathEntry) : List Finding :=
  (ps.filter (fun p => p.status_code == some 200)).map (fun p =>
    { ftype := "interesting_path", severity := "info",
      path := some p.path, status_code := p.status_code })

/-- The findings produced from a single tool result: open ports from
the hosts map, one web_vulnerability per vulnerabilities entry, and one
interesting_path per discovered_paths entry whose status_code is
exactly 200 (supervisor.py lines 303-338). -/
def resultFindings (result : ToolResult) : List Finding :=
  (match result.hosts with
   | some hs => hostsFindings hs
   | none => []) ++
  (match result.vulnerabilities with
   | some vs => vulnFindings vs
   | none => []) ++
  (match result.discovered_paths with
   | some ps => pathFindings ps
   | none => [])

/-- SupervisorAgent._extract_findings_from_results, lines 299-340, over
a list of tool-name and result pairs: concatenate the findings of each
result in order. -/
def extractFindingsFromResults (step_results : List (String × ToolResult)) : List Finding :=
  step_results.flatMap (fun tr => resultFindings tr.2)

/-- Number of open ports across the hosts map of one result (the count
of open_port findings the extraction owes this result). -/
def openPortCount (r : ToolResult) : ℕ :=
  match r.hosts with
  | some hs => (hs.map (fun hp => (hp.2.ports.filter (fun p => p.state == some "open")).length)).sum
  | none => 0

/-- Number of entries of the vulnerabilities list of one result. -/
def vulnCount (r : ToolResult) : ℕ :=
  match r.vulnerabilities with
  | some vs => vs.length
  | none => 0

/-- Number of discovered paths of one result whose status_code is
exactly 200. -/
def path200Count (r : ToolResult) : ℕ :=
  match r.discovered_paths with
  | some ps => (ps.filter (fun p => p.status_code == some 200)).length
  | none => 0

/-- The external tool collaborator: invoking a named tool either
returns a structured result or raises, modelled as an error value.  In
src/agents/supervisor.py the call is _simulate_tool_execution (which
the test-suite patches to raise); the task parameters are fixed for the
whole run and are baked into the function. -/
def ToolBehavior : Type := String → Except String ToolResult

/-- The tool loop of SupervisorAgent._execute_step, lines 220-225: call
each tool in order, collecting tool and result pairs; the first raised
error aborts the loop (the surrounding try catches it). -/
def runTools (behav : ToolBehavior) : List String → Except String (List (String × ToolResult))
  | [] => Except.ok []
  | t :: ts =>
    match behav t with
    | Except.error e => Except.error e
    | Except.ok r =>
      match runTools behav ts with
      | Except.error e => Except.error e
      | Except.ok rs => Except.ok ((t, r) :: rs)

/-- The tools actually invoked by the tool loop of _execute_step: every
tool up to and including the first one that raises. -/
def invokedTools (behav : ToolBehavior) : List String → List String
  | [] => []
  | t :: ts =>
    match behav t with
    | Except.error _ => [t]
    | Except.ok _ => t :: invokedTools behav ts

/-- The dict returned by SupervisorAgent._execute_step: either a
completed result carrying tools_executed and findings keys, or an error
result carrying only the error message (no findings key).  The
execution_time key added afterwards by the plan loop is wall clock and
is not modelled. -/
inductive StepResult where
  | completed (agent : String) (tools_executed : List (String × ToolResult))
      (findings : List Finding)
  | error (agent : String) (message : String)
deriving DecidableEq, Repr

/-- SupervisorAgent._execute_step, lines 214-235: run the tool loop in
a try block; on success return a completed result with the findings
extracted from the collected pairs, on a raised error return an error
result. -/
def executeStep (behav : ToolBehavior) (agent : String) (tools : List String) : StepResult :=
  match runTools behav tools with
  | Except.ok rs => StepResult.completed agent rs (extractFindingsFromResults rs)
  | Except.error e => StepResult.error agent e

/-- The findings list the plan loop reads from a step result: the dict
has a findings key only in the completed case. -/
def StepResult.findingsOf : StepResult → List Finding
  | .completed _ _ fs => fs
  | .error _ _ => []

/-- Whether a step result has status error. -/
def StepResult.isError : StepResult → Bool
  | .completed _ _ _ => false
  | .error _ _ => true

/-- One entry of the aggregate errors list of _execute_plan: step-level
entries carry the step ordinal, the top-level exception entry does
not. -/
structure StepError where
  stepOrdinal : Option ℕ
  error : String
deriving DecidableEq, Repr

/-- The error-list entries the plan loop appends for one step result
(one entry exactly when the step has status error). -/
def stepErrorsOf (s : PlanStep) (sr : StepResult) : List StepError :=
  match sr with
  | StepResult.error _ e => [{ stepOrdinal := some s.step, error := e }]
  | _ => []

/-- The results dict built by SupervisorAgent._execute_plan.  Its keys
are exactly steps_completed, findings, errors and execution_time; the
wall-clock execution_time value is not modelled. -/
structure ExecResults where
  steps_completed : List StepResult := []
  findings : List Finding := []
  errors : List StepError := []
deriving DecidableEq, Repr

/-- The step loop of SupervisorAgent._execute_plan, lines 170-191: for
each step in order run _execute_step, append its result to
steps_completed, extend findings when the result has a findings key,
and append a step error entry when the result has status error.  No
exception escapes this loop in the model, matching the run condition of
the claims (the except branch of lines 193-195 is the only place that
sets the task FAILED). -/
def execLoop (behav : ToolBehavior) : List PlanStep → ExecResults → ExecResults
  | [], acc => acc
  | s :: rest, acc =>
    let sr := executeStep behav s.agent s.tools
    execLoop behav rest
      { steps_completed := acc.steps_completed ++ [sr],
        findings := acc.findings ++ sr.findingsOf,
        errors := acc.errors ++ stepErrorsOf s sr }

/-- The outcome of _execute_plan: the results dict, the task status
after the run, and the performance metrics written to the task. -/
structure PlanOutcome where
  results : ExecResults
  status : TaskStatus
  metrics : PerformanceMetrics
deriving DecidableEq, Repr

/-- SupervisorAgent._execute_plan, lines 160-212, for a task whose plan
is present: run the step loop from empty accumulators, set the task
status to COMPLETED exactly when the aggregate error list is empty
(otherwise it is left at its prior value status0), and write the
metrics with success_rate 1 or 0 by emptiness of the error list,
accuracy 0.9, confidence_score 0.8 and error_count the length of the
error list.  The wall-clock total time is passed in as total_time. -/
def executePlan (behav : ToolBehavior) (steps : List PlanStep) (status0 : TaskStatus)
    (total_time : ℚ) : PlanOutcome :=
  let results := execLoop behav steps {}
  { results := results,
    status := if results.errors.isEmpty then TaskStatus.completed else status0,
    metrics := { execution_time := total_time,
                 success_rate := if results.errors.isEmpty then 1 else 0,
                 accuracy := 9/10,
                 error_count := results.errors.length,
                 improvement_rate := 0,
                 confidence_score := 4/5 } }

/-- The expression results.get("status") in process_user_request: the
results dict built by _execute_plan has exactly the keys
steps_completed, findings, errors and execution_time, so the status key
is always absent. -/
def ExecResults.statusKey (_r : ExecResults) : Option String := none

/-- The status resolution of process_user_request, supervisor.py lines
73-79: a completed flag sets COMPLETED, a failed flag sets FAILED, and
otherwise the expression task.status or TaskStatus.PENDING keeps the
current status (enum members are truthy in Python). -/
def finalizeStatus (status_flag : Option String) (current : TaskStatus) : TaskStatus :=
  if status_flag = some "completed" then TaskStatus.completed
  else if status_flag = some "failed" then TaskStatus.failed
  else current

/-- SupervisorAgent.process_user_request, lines 61-89, up to the final
task status: classify the request, build the plan from the task type,
execute it starting from the PENDING status a fresh Task carries, and
resolve the final status from the absent status key. -/
def processUserRequest (behav : ToolBehavior) (request : String)
    (parameters : List (String × String)) (total_time : ℚ) : TaskStatus × PlanOutcome :=
  let ct := analyzeAndCreateTask request parameters
  let plan := createExecutionPlan ct.task_type
  let outcome := executePlan behav plan.steps TaskStatus.pending total_time
  (finalizeStatus outcome.results.statusKey outcome.status, outcome)

/-- The history update of SupervisorAgent._learn_from_execution, lines
369-373, for one agent: append the performance record, then if the
history exceeds 50 entries keep only the last 50 (the Python slice
history[-50:]). -/
def updateHistory (history : List PerformanceMetrics) (m : PerformanceMetrics) :
    List PerformanceMetrics :=
  let h2 := history ++ [m]
  if 50 < h2.length then h2.drop (h2.length - 50) else h2

/-- The last n entries of a list (the Python slice l[-n:] when the list
is longer than n). -/
def lastK (n : ℕ) (l : List α) : List α := l.drop (l.length - n)

/-- The agent loop of SupervisorAgent._learn_from_execution, lines
366-373: the performance record of the task is appended to the history
of every registered agent, not only the agents involved in the task.
An agent is modelled by its id and its performance history, the only
state this loop touches. -/
def learnAllAgents (agents : List (String × List PerformanceMetrics))
    (m : PerformanceMetrics) : List (String × List PerformanceMetrics) :=
  agents.map (fun a => (a.1, updateHistory a.2 m))

/-- The six agents registered by SupervisorAgent._initialize_agents,
lines 35-59, each starting with the empty performance history the
AgentState dataclass defaults to (create_network_agent_state also
leaves the history at its default). -/
def initialAgents : List (String × List PerformanceMetrics) :=
  [("network_agent", []), ("web_agent", []), ("vulnerability_agent", []),
   ("forensic_agent", []), ("social_agent", []), ("report_agent", [])]

/-- The state of QLearningAgent touched by its adapt method: the
current epsilon and the reward history. -/
structure QLearningState where
  epsilon : ℚ
  reward_history : List ℚ := []
deriving DecidableEq, Repr

/-- The constructor state of QLearningAgent with the default epsilon
parameter 0.1 (ml_algorithms.py line 218). -/
def qlearningDefault : QLearningState := { epsilon := 1/10 }

/-- QLearningAgent.adapt, ml_algorithms.py lines 249-258: append the
reward success_rate - 0.5, then multiply epsilon by 1.1 capped at 0.3
when success_rate is below 0.6, else multiply it by 0.9 floored at
0.01. -/
def qlearningAdapt (st : QLearningState) (success_rate : ℚ) : QLearningState :=
  { epsilon :=
      if success_rate < 3/5 then min (3/10) (st.epsilon * (11/10))
      else max (1/100) (st.epsilon * (9/10)),
    reward_history := st.reward_history ++ [success_rate - 1/2] }

/-- A value of a pattern data mapping as classified by
PatternRecognition._calculate_similarity: a string, a numeric (Python
int, float or bool), or any other value, which the per-key comparison
skips. -/
inductive PValue where
  | str (v : String)
  | num (v : ℚ)
  | other
deriving DecidableEq, Repr

/-- Whether a value takes part in the per-key comparison (it is a
string or a numeric). -/
def PValue.comparableP : PValue → Bool
  | .str _ => true
  | .num _ => true
  | .other => false

/-- The per-key score of _calculate_similarity, lines 325-334: strings
compare by case-folded equality to 1 or 0, numerics by the normalized
absolute difference max(0, 1 - diff / max(abs a, abs b, 1)), and any
other pairing is skipped. -/
def pairScore : PValue → PValue → Option ℚ
  | PValue.str a, PValue.str b => some (if strToLower a = strToLower b then 1 else 0)
  | PValue.num a, PValue.num b => some (max 0 (1 - |a - b| / max (max |a| |b|) 1))
  | _, _ => none

/-- PatternRecognition._calculate_similarity, ml_algorithms.py lines
314-336: return 0 for an empty mapping or an empty key intersection,
otherwise the mean of the per-key scores over the common keys, and 0
again when every common value pairing was skipped.  The dicts are
modelled as association lists; set iteration order does not affect the
mean. -/
def calculateSimilarity (data1 data2 : List (String × PValue)) : ℚ :=
  if data1.isEmpty || data2.isEmpty then 0
  else
    let commonKeys := (data1.map Prod.fst).dedup.filter
      (fun k => (data2.map Prod.fst).contains k)
    if commonKeys.isEmpty then 0
    else
      let scores := commonKeys.filterMap (fun k =>
        match data1.lookup k, data2.lookup k with
        | some v1, some v2 => pairScore v1 v2
        | _, _ => none)
      if scores.isEmpty then 0 else scores.sum / (scores.length : ℚ)

/-- The randomness consumed by the genetic algorithm, as three abstract
draw streams: uniStream models successive random.random() draws,
gaussStream successive random.gauss(0, 0.1) draws, and idxStream the
successive indices picked by random.choice. -/
structure Rng where
  uniStream : ℕ → ℚ
  gaussStream : ℕ → ℚ
  idxStream : ℕ → ℕ

/-- The position reached in each draw stream. -/
structure RandCursor where
  u : ℕ := 0
  g : ℕ := 0
  i : ℕ := 0
deriving DecidableEq, Repr

/-- Draw the next random.random() value. -/
def Rng.nextUni (rg : Rng) (c : RandCursor) : ℚ × RandCursor :=
  (rg.uniStream c.u, { c with u := c.u + 1 })

/-- Draw the next random.gauss(0, 0.1) value. -/
def Rng.nextGauss (rg : Rng) (c : RandCursor) : ℚ × RandCursor :=
  (rg.gaussStream c.g, { c with g := c.g + 1 })

/-- Draw the next random.choice index into a sequence of length n. -/
def Rng.nextChoice (rg : Rng) (c : RandCursor) (n : ℕ) : ℕ × RandCursor :=
  (rg.idxStream c.i % n, { c with i := c.i + 1 })

/-- All random.random() draws lie in the interval [0, 1). -/
def UniBounded (rg : Rng) : Prop :=
  ∀ n, 0 ≤ rg.uniStream n ∧ rg.uniStream n < 1

/-- Individual dataclass of ml_algorithms.py: a gene vector and a
fitness defaulting to 0. -/
structure Individual where
  genes : List ℚ
  fitness : ℚ := 0
deriving DecidableEq, Repr

/-- Clamp to [0, 1], the expression max(0.0, min(1.0, x)). -/
def clamp01 (x : ℚ) : ℚ := max 0 (min 1 x)

/-- Individual.mutate, ml_algorithms.py lines 114-119: for each gene
draw random.random(); when it is below the mutation rate add a
random.gauss(0, 0.1) offset and clamp the gene to [0, 1], otherwise
leave the gene unchanged. -/
def mutateGenes (rg : Rng) (mutation_rate : ℚ) : List ℚ → RandCursor → List ℚ × RandCursor
  | [], c => ([], c)
  | g :: gs, c =>
    let uc := rg.nextUni c
    if uc.1 < mutation_rate then
      let zc := rg.nextGauss uc.2
      let rest := mutateGenes rg mutation_rate gs zc.2
      (clamp01 (g + zc.1) :: rest.1, rest.2)
    else
      let rest := mutateGenes rg mutation_rate gs uc.2
      (g :: rest.1, rest.2)

/-- The GeneticAlgorithm constructor parameters, with the defaults of
ml_algorithms.py lines 130-132 (the supervisor passes
population_size 20). -/
structure GAConfig where
  population_size : ℕ := 20
  mutation_rate : ℚ := 1/10
  gene_count : ℕ := 5

/-- The mutable state of GeneticAlgorithm: the population and the
generation counter, both starting empty and zero. -/
structure GAState where
  population : List Individual := []
  generation : ℕ := 0
deriving DecidableEq, Repr

/-- A fresh gene vector of n random.random() draws (the body of
initialize_population, line 140). -/
def randGenes (rg : Rng) : ℕ → RandCursor → List ℚ × RandCursor
  | 0, c => ([], c)
  | n+1, c =>
    let uc := rg.nextUni c
    let rest := randGenes rg n uc.2
    (uc.1 :: rest.1, rest.2)

/-- GeneticAlgorithm.initialize_population, lines 136-141: n fresh
individuals with gene_count random genes each and fitness 0. -/
def initPopulation (rg : Rng) (cfg : GAConfig) : ℕ → RandCursor → List Individual × RandCursor
  | 0, c => ([], c)
  | n+1, c =>
    let gsc := randGenes rg cfg.gene_count c
    let rest := initPopulation rg cfg n gsc.2
    ({ genes := gsc.1 } :: rest.1, rest.2)

/-- GeneticAlgorithm.fitness_function, lines 143-152: the mean of
genes[0] and genes[1], each treated as 0.5 when the vector is too
short. -/
def fitnessFunction (ind : Individual) : ℚ :=
  (ind.genes.getD 0 (1/2) + ind.genes.getD 1 (1/2)) / 2

/-- One offspring of the refill loop, lines 172-174: pick a random
survivor, clone its genes (fitness resets to the Individual default 0)
and mutate them. -/
def gaChild (rg : Rng) (cfg : GAConfig) (survivors : List Individual) (c : RandCursor) :
    Individual × RandCursor :=
  let kc := rg.nextChoice c survivors.length
  let parent := survivors.getD kc.1 { genes := [] }
  let gsc := mutateGenes rg cfg.mutation_rate parent.genes kc.2
  ({ genes := gsc.1 }, gsc.2)

/-- The offspring loop of evolve_generation, lines 170-175: while the
new population is short of population_size, append a mutated clone of a
random survivor.  random.choice on an empty survivor list raises
IndexError, modelled as none. -/
def refillPopulation (rg : Rng) (cfg : GAConfig) (survivors : List Individual) :
    ℕ → RandCursor → Option (List Individual × RandCursor)
  | 0, c => some ([], c)
  | n+1, c =>
    if survivors.isEmpty then none
    else
      let cc := gaChild rg cfg survivors c
      match refillPopulation rg cfg survivors n cc.2 with
      | some (rest, c3) => some (cc.1 :: rest, c3)
      | none => none

/-- The fitness-scoring pass of evolve_generation, lines 160-161:
assign every individual its fitness. -/
def scorePopulation (pop : List Individual) : List Individual :=
  pop.map (fun ind => { ind with fitness := fitnessFunction ind })

/-- The sorting pass of evolve_generation, line 164: sort descending by
fitness; Python list.sort is stable, modelled by a stable merge
sort. -/
def sortByFitnessDesc (pop : List Individual) : List Individual :=
  pop.mergeSort (fun a b => decide (b.fitness ≤ a.fitness))

/-- The body of evolve_generation on an already nonempty population:
score, sort, keep the best half as survivors, and refill up to
population_size with mutated clones of random survivors. -/
def evolveFrom (rg : Rng) (cfg : GAConfig) (pop0 : List Individual) (c0 : RandCursor) :
    Option (List Individual × RandCursor) :=
  let sorted := sortByFitnessDesc (scorePopulation pop0)
  let survivors := sorted.take (cfg.population_size / 2)
  match refillPopulation rg cfg survivors (cfg.population_size - survivors.length) c0 with
  | some (offspring, c1) => some (survivors ++ offspring, c1)
  | none => none

/-- GeneticAlgorithm.evolve_generation, lines 154-178: initialize the
population when empty, run the score-sort-select-refill body, and bump
the generation counter. -/
def evolveGeneration (rg : Rng) (cfg : GAConfig) (st : GAState) (c : RandCursor) :
    Option (GAState × RandCursor) :=
  let pc :=
    if st.population.isEmpty then initPopulation rg cfg cfg.population_size c
    else (st.population, c)
  match evolveFrom rg cfg pc.1 pc.2 with
  | some (newpop, c1) =>
      some ({ population := newpop, generation := st.generation + 1 }, c1)
  | none => none

/-- The expression max(population, key=fitness), line 191: the first
individual of maximal fitness; raises on an empty population, modelled
as none. -/
def maxByFitness : List Individual → Option Individual
  | [] => none
  | x :: xs => some (xs.foldl (fun b y => if b.fitness < y.fitness then y else b) x)

/-- GeneticAlgorithm.adapt, lines 180-198: evolve exactly 5 generations
and read off the best individual (whose existence the max call
requires). -/
def gaAdapt (rg : Rng) (cfg : GAConfig) (st : GAState) (c : RandCursor) :
    Option (GAState × RandCursor) := do
  let s1 ← evolveGeneration rg cfg st c
  let s2 ← evolveGeneration rg cfg s1.1 s1.2
  let s3 ← evolveGeneration rg cfg s2.1 s2.2
  let s4 ← evolveGeneration rg cfg s3.1 s3.2
  let s5 ← evolveGeneration rg cfg s4.1 s4.2
  let _best ← maxByFitness s5.1.population
  some s5

/-- A sequence of n successive adapt calls from a given state. -/
def gaIterate (rg : Rng) (cfg : GAConfig) : ℕ → GAState → RandCursor → Option (GAState × RandCursor)
  | 0, st, c => some (st, c)
  | n+1, st, c =>
    match gaAdapt rg cfg st c with
    | some (st1, c1) => gaIterate rg cfg n st1 c1
    | none => none

/-- Every gene of every individual of a population lies in [0, 1]. -/
def GenesIn01 (pop : List Individual) : Prop :=
  ∀ ind ∈ pop, ∀ g ∈ ind.genes, 0 ≤ g ∧ g ≤ 1

/-- A tool collaborator whose every call raises, as the test suite of
the repository produces by patching _simulate_tool_execution with side
effect Exception with message Tool execution failed. -/
def failingBehavior : ToolBehavior := fun _ => Except.error "Tool execution failed"

/-- The nmap_scan result hard-coded in _simulate_tool_execution, lines
242-256, for target localhost: three open ports. -/
def demoNmapResult : ToolResult :=
  { hosts := some [("localhost",
      { status := "up",
        ports := [⟨22, "tcp", some "ssh", some "open"⟩,
                  ⟨80, "tcp", some "http", some "open"⟩,
                  ⟨443, "tcp", some "https", some "open"⟩] })] }

/-- A gobuster-shaped result holding a single discovered path with
status code 403, for the round-trip scenario of the spec. -/
def demo403PathResult : ToolResult :=
  { discovered_paths := some [{ path := "/admin", status_code := some 403, size := 1234 }] }

/-- A deterministic instance of the draw streams: every random.random()
draw is one half, every gauss draw is zero, every choice index is
zero.  Used to instantiate the genetic-algorithm theorems on a concrete
run. -/
def halfRng : Rng :=
  { uniStream := fun _ => 1/2, gaussStream := fun _ => 0, idxStream := fun _ => 0 }

/-- A small genetic-algorithm configuration (population 2, one gene)
used to instantiate the invariant theorem on a concrete run. -/
def smallGAConfig : GAConfig :=
  { population_size := 2, mutation_rate := 1/10, gene_count := 1 }

/-! Theorems. -/

/-- Closed form of the plan step loop: it visits every step, appending
one step result per step, the findings of completed steps, and one
error entry per errored step. -/
theorem execLoop_eq (behav : ToolBehavior) (steps : List PlanStep) (acc : ExecResults) :
    execLoop behav steps acc =
      { steps_completed := acc.steps_completed
          ++ steps.map (fun s => executeStep behav s.agent s.tools),
        findings := acc.findings
          ++ steps.flatMap (fun s => (executeStep behav s.agent s.tools).findingsOf),
        errors := acc.errors
          ++ steps.flatMap (fun s => stepErrorsOf s (executeStep behav s.agent s.tools)) } := by
  induction steps generalizing acc with
  | nil => simp [execLoop]
  | cons s rest ih => simp [execLoop, ih, List.append_assoc]

/-- The tool loop of a step succeeds exactly when every tool call
succeeds. -/
theorem runTools_isOk (behav : ToolBehavior) (tools : List String) :
    (runTools behav tools).isOk = tools.all (fun t => (behav t).isOk) := by
  induction tools with
  | nil => rfl
  | cons t ts ih =>
    simp only [List.all_cons, ← ih]
    cases h : behav t with
    | error e => simp [runTools, h, Except.isOk, Except.toBool]
    | ok r =>
      cases hr : runTools behav ts with
      | error e => simp [runTools, h, hr, Except.isOk, Except.toBool]
      | ok rs => simp [runTools, h, hr, Except.isOk, Except.toBool]

/-- When some tool call of a step fails, the step result has status
error and carries no findings. -/
theorem executeStep_of_fail (behav : ToolBehavior) (agent : String) (tools : List String)
    (h : ∃ t ∈ tools, (behav t).isOk = false) :
    (executeStep behav agent tools).isError = true
    ∧ (executeStep behav agent tools).findingsOf = [] := by
  obtain ⟨t, ht, hf⟩ := h
  have hall : tools.all (fun t => (behav t).isOk) = false := by
    cases hall2 : tools.all (fun t => (behav t).isOk) with
    | false => rfl
    | true =>
      have := List.all_eq_true.mp hall2 t ht
      rw [hf] at this
      exact absurd this (by simp)
  have hko : (runTools behav tools).isOk = false := by rw [runTools_isOk, hall]
  cases hrt : runTools behav tools with
  | ok rs => rw [hrt] at hko; simp [Except.isOk, Except.toBool] at hko
  | error e =>
    unfold executeStep
    rw [hrt]
    exact ⟨rfl, rfl⟩

/-- The tools the step loop actually invokes are the succeeding prefix
followed by the first failing tool, when there is one. -/
theorem invokedTools_eq (behav : ToolBehavior) (tools : List String) :
    invokedTools behav tools
      = tools.takeWhile (fun t => (behav t).isOk)
        ++ (tools.dropWhile (fun t => (behav t).isOk)).take 1 := by
  induction tools with
  | nil => rfl
  | cons t ts ih =>
    cases h : behav t with
    | error e =>
      simp [invokedTools, h, List.takeWhile_cons, List.dropWhile_cons, Except.isOk,
        Except.toBool]
    | ok r =>
      simp [invokedTools, h, List.takeWhile_cons, List.dropWhile_cons, Except.isOk,
        Except.toBool, ih]

/-- C10: if any tool call within a step raises, _execute_step stops
invoking the remaining tools of that step (the invoked tools are exactly the
succeeding prefix plus the single first failing tool) and returns an
error result carrying no findings; since the plan loop aggregates only
the findings carried by step results, such a step contributes nothing
to the aggregate finding list. -/
theorem C10_step_error_isolation (behav : ToolBehavior) (agent : String)
    (tools : List String) (steps : List PlanStep) :
    invokedTools behav tools
      = tools.takeWhile (fun t => (behav t).isOk)
        ++ (tools.dropWhile (fun t => (behav t).isOk)).take 1
    ∧ ((∃ t ∈ tools, (behav t).isOk = false) →
        (executeStep behav agent tools).isError = true
        ∧ (executeStep behav agent tools).findingsOf = [])
    ∧ (execLoop behav steps {}).findings
      = steps.flatMap (fun s => (executeStep behav s.agent s.tools).findingsOf) :=
  ⟨invokedTools_eq behav tools, executeStep_of_fail behav agent tools, by
    rw [execLoop_eq]; simp⟩

/-- Witness for C10 at a concrete failing tool call. -/
theorem C10_step_error_isolation_witness :
    (∃ t ∈ ["nmap_scan"], (failingBehavior t).isOk = false)
    ∧ (executeStep failingBehavior "network_agent" ["nmap_scan"]).isError = true
    ∧ (executeStep failingBehavior "network_agent" ["nmap_scan"]).findingsOf = [] := by
  have h : ∃ t ∈ ["nmap_scan"], (failingBehavior t).isOk = false := by decide
  exact ⟨h,
    ((C10_step_error_isolation failingBehavior "network_agent" ["nmap_scan"] []).2.1 h).1,
    ((C10_step_error_isolation failingBehavior "network_agent" ["nmap_scan"] []).2.1 h).2⟩

/-- C1 counterexample: a run of the network_scan plan whose sole tool
call fails produces a nonempty error list and a full steps_completed
list, yet the final task status is PENDING, not FAILED (and not
COMPLETED): the claim that the final status is FAILED is false on the
code. -/
theorem C1_counterexample :
    (processUserRequest failingBehavior "scan 10.0.0.5" [] 0).1 = TaskStatus.pending
    ∧ (processUserRequest failingBehavior "scan 10.0.0.5" [] 0).1 ≠ TaskStatus.failed
    ∧ 1 ≤ (processUserRequest failingBehavior "scan 10.0.0.5" [] 0).2.results.errors.length
    ∧ (processUserRequest failingBehavior "scan 10.0.0.5" [] 0).2.results.steps_completed.length
        = (createExecutionPlan "network_scan").steps.length := by
  decide

/-- C1 (amended): when at least one step result has status error (an
individual tool call failed inside the step, no exception escaping),
the loop still processes every plan step (one steps_completed entry per
step), the aggregate error list is nonempty, and the final task status
after process_user_request is PENDING: it is neither COMPLETED nor
FAILED, since FAILED is only set when an uncaught exception escapes
step processing. -/
theorem C1_step_failure_tolerated (behav : ToolBehavior) (steps : List PlanStep) (t : ℚ)
    (hfail : ∃ s ∈ steps, (executeStep behav s.agent s.tools).isError = true) :
    (executePlan behav steps TaskStatus.pending t).results.steps_completed.length
        = steps.length
    ∧ 1 ≤ (executePlan behav steps TaskStatus.pending t).results.errors.length
    ∧ finalizeStatus ((executePlan behav steps TaskStatus.pending t).results.statusKey)
        ((executePlan behav steps TaskStatus.pending t).status) = TaskStatus.pending := by
  obtain ⟨s, hs, herr⟩ := hfail
  obtain ⟨a, e, hst⟩ : ∃ a e, executeStep behav s.agent s.tools = StepResult.error a e := by
    cases hst : executeStep behav s.agent s.tools with
    | completed a te f => rw [hst] at herr; simp [StepResult.isError] at herr
    | error a e => exact ⟨a, e, rfl⟩
  have hmem : ({ stepOrdinal := some s.step, error := e } : StepError)
      ∈ (execLoop behav steps {}).errors := by
    rw [execLoop_eq]
    refine List.mem_append.mpr (Or.inr (List.mem_flatMap.mpr ⟨s, hs, ?_⟩))
    rw [hst]
    simp [stepErrorsOf]
  have hne : (execLoop behav steps {}).errors ≠ [] := List.ne_nil_of_mem hmem
  have hie : (execLoop behav steps {}).errors.isEmpty = false :=
    List.isEmpty_eq_false.mpr hne
  refine ⟨?_, ?_, ?_⟩
  · show (execLoop behav steps {}).steps_completed.length = steps.length
    rw [execLoop_eq]
    simp
  · show 1 ≤ (execLoop behav steps {}).errors.length
    exact List.length_pos.mpr hne
  · show finalizeStatus none
        (if (execLoop behav steps {}).errors.isEmpty then TaskStatus.completed
         else TaskStatus.pending) = TaskStatus.pending
    rw [hie]
    rfl

/-- Witness for the amended C1 at a concrete failing run of the
network_scan plan. -/
theorem C1_step_failure_tolerated_witness :
    (∃ s ∈ (createExecutionPlan "network_scan").steps,
        (executeStep failingBehavior s.agent s.tools).isError = true)
    ∧ ((executePlan failingBehavior (createExecutionPlan "network_scan").steps
          TaskStatus.pending 0).results.steps_completed.length
        = (createExecutionPlan "network_scan").steps.length
      ∧ 1 ≤ (executePlan failingBehavior (createExecutionPlan "network_scan").steps
          TaskStatus.pending 0).results.errors.length
      ∧ finalizeStatus ((executePlan failingBehavior
            (createExecutionPlan "network_scan").steps TaskStatus.pending 0).results.statusKey)
          ((executePlan failingBehavior (createExecutionPlan "network_scan").steps
            TaskStatus.pending 0).status) = TaskStatus.pending) :=
  ⟨by decide,
   C1_step_failure_tolerated failingBehavior (createExecutionPlan "network_scan").steps 0
     (by decide)⟩

/-- C2: after every plan execution that reaches metric computation, the
written metrics have success_rate 1.0 exactly when the aggregate error
list is empty and 0.0 exactly when it is not, while accuracy and
confidence_score are the constants 0.9 and 0.8 regardless of the
outcome. -/
theorem C2_metrics_policy (behav : ToolBehavior) (steps : List PlanStep)
    (status0 : TaskStatus) (t : ℚ) :
    ((executePlan behav steps status0 t).metrics.success_rate = 1
      ↔ (executePlan behav steps status0 t).results.errors = [])
    ∧ ((executePlan behav steps status0 t).metrics.success_rate = 0
      ↔ (executePlan behav steps status0 t).results.errors ≠ [])
    ∧ (executePlan behav steps status0 t).metrics.accuracy = 9/10
    ∧ (executePlan behav steps status0 t).metrics.confidence_score = 4/5 := by
  have hsr : (executePlan behav steps status0 t).metrics.success_rate
      = if (execLoop behav steps {}).errors.isEmpty then (1 : ℚ) else 0 := rfl
  have hre : (executePlan behav steps status0 t).results.errors
      = (execLoop behav steps {}).errors := rfl
  refine ⟨?_, ?_, rfl, rfl⟩
  · rw [hsr, hre]
    cases hie : (execLoop behav steps {}).errors.isEmpty with
    | true =>
      have he : (execLoop behav steps {}).errors = [] := List.isEmpty_iff.mp hie
      simp [he]
    | false =>
      have hne : (execLoop behav steps {}).errors ≠ [] := List.isEmpty_eq_false.mp hie
      simp only [Bool.false_eq_true, if_false]
      constructor
      · intro h0
        exact absurd h0 (by norm_num)
      · intro h
        exact absurd h hne
  · rw [hsr, hre]
    cases hie : (execLoop behav steps {}).errors.isEmpty with
    | true =>
      have he : (execLoop behav steps {}).errors = [] := List.isEmpty_iff.mp hie
      simp only [if_true]
      constructor
      · intro h0
        exact absurd h0 (by norm_num)
      · intro h
        exact absurd he h
    | false =>
      have hne : (execLoop behav steps {}).errors ≠ [] := List.isEmpty_eq_false.mp hie
      simp only [Bool.false_eq_true, if_false]
      exact iff_of_true (by trivial) hne

/-- C4: classification is deterministic keyword matching on the
lower-cased request text with first-match precedence (pentest or
penetration test beats scan or recon beats web beats the general
fallback), and the target is read from the parameters with default
localhost. -/
theorem C4_classification (request : String) (parameters : List (String × String)) :
    ((strContains (strToLower request) "pentest"
        || strContains (strToLower request) "penetration test") = true →
      (analyzeAndCreateTask request parameters).task_type = "penetration_test"
      ∧ (analyzeAndCreateTask request parameters).priority = Priority.high)
    ∧ ((strContains (strToLower request) "pentest"
        || strContains (strToLower request) "penetration test") = false →
       (strContains (strToLower request) "scan"
        || strContains (strToLower request) "recon") = true →
      (analyzeAndCreateTask request parameters).task_type = "network_scan"
      ∧ (analyzeAndCreateTask request parameters).priority = Priority.medium)
    ∧ ((strContains (strToLower request) "pentest"
        || strContains (strToLower request) "penetration test") = false →
       (strContains (strToLower request) "scan"
        || strContains (strToLower request) "recon") = false →
       strContains (strToLower request) "web" = true →
      (analyzeAndCreateTask request parameters).task_type = "web_assessment"
      ∧ (analyzeAndCreateTask request parameters).priority = Priority.medium)
    ∧ ((strContains (strToLower request) "pentest"
        || strContains (strToLower request) "penetration test") = false →
       (strContains (strToLower request) "scan"
        || strContains (strToLower request) "recon") = false →
       strContains (strToLower request) "web" = false →
      (analyzeAndCreateTask request parameters).task_type = "general_assessment"
      ∧ (analyzeAndCreateTask request parameters).priority = Priority.medium)
    ∧ (analyzeAndCreateTask request parameters).target
        = dictGetD parameters "target" "localhost" := by
  refine ⟨?_, ?_, ?_, ?_, rfl⟩
  · intro h1
    constructor <;> simp [analyzeAndCreateTask, h1]
  · intro h1 h2
    constructor <;> simp [analyzeAndCreateTask, h1, h2]
  · intro h1 h2 h3
    constructor <;> simp [analyzeAndCreateTask, h1, h2, h3]
  · intro h1 h2 h3
    constructor <;> simp [analyzeAndCreateTask, h1, h2, h3]

/-- Witness for C4 on a concrete pentest request with explicit target
and on the fallthrough branches via a scan request. -/
theorem C4_classification_witness :
    (strContains (strToLower "Run a PENTEST now") "pentest"
        || strContains (strToLower "Run a PENTEST now") "penetration test") = true
    ∧ (analyzeAndCreateTask "Run a PENTEST now" [("target", "10.0.0.5")]).task_type
        = "penetration_test"
    ∧ (analyzeAndCreateTask "Run a PENTEST now" [("target", "10.0.0.5")]).priority
        = Priority.high
    ∧ (analyzeAndCreateTask "Run a PENTEST now" [("target", "10.0.0.5")]).target
        = "10.0.0.5" := by
  have h1 : (strContains (strToLower "Run a PENTEST now") "pentest"
      || strContains (strToLower "Run a PENTEST now") "penetration test") = true := by decide
  have hc := (C4_classification "Run a PENTEST now" [("target", "10.0.0.5")]).1 h1
  exact ⟨h1, hc.1, hc.2, by decide⟩

/-- C5: every built plan has estimated_duration the exact sum of its
step estimates and assigned_agents the ordered per-step agent list; the
penetration_test plan has 4 steps totaling 1800 seconds, the
network_scan plan has 1 step assigned to the network agent, the
web_assessment plan has 2 steps, and every other task type yields an
empty plan of duration 0. -/
theorem C5_plan_shape (task_type : String) :
    (createExecutionPlan task_type).estimated_duration
        = ((createExecutionPlan task_type).steps.map (fun s => s.estimated_time)).sum
    ∧ (createExecutionPlan task_type).assigned_agents
        = (createExecutionPlan task_type).steps.map (fun s => s.agent)
    ∧ (createExecutionPlan "penetration_test").steps.length = 4
    ∧ (createExecutionPlan "penetration_test").estimated_duration = 1800
    ∧ (createExecutionPlan "network_scan").steps.length = 1
    ∧ (createExecutionPlan "network_scan").assigned_agents = ["network_agent"]
    ∧ (createExecutionPlan "web_assessment").steps.length = 2
    ∧ (task_type ≠ "penetration_test" → task_type ≠ "network_scan" →
       task_type ≠ "web_assessment" →
      (createExecutionPlan task_type).steps = []
      ∧ (createExecutionPlan task_type).estimated_duration = 0) := by
  refine ⟨rfl, rfl, by decide, by norm_num [createExecutionPlan, planStepsFor],
    by decide, by decide, by decide, ?_⟩
  intro h1 h2 h3
  constructor <;> simp [createExecutionPlan, planStepsFor, h1, h2, h3]

/-- Witness for C5 on the fallback task type. -/
theorem C5_plan_shape_witness :
    ("general_assessment" ≠ "penetration_test"
      ∧ "general_assessment" ≠ "network_scan"
      ∧ "general_assessment" ≠ "web_assessment")
    ∧ ((createExecutionPlan "general_assessment").steps = []
      ∧ (createExecutionPlan "general_assessment").estimated_duration = 0) :=
  ⟨by decide,
   (C5_plan_shape "general_assessment").2.2.2.2.2.2.2 (by decide) (by decide) (by decide)⟩

/-- lastK in reverse-take form. -/
theorem lastK_reverse (n : ℕ) (l : List α) :
    lastK n l = (l.reverse.take n).reverse := by
  rw [List.take_reverse, List.reverse_reverse]
  rfl

/-- Keeping the last n of a list whose front was already trimmed to its
last n, then appending, trims to the same suffix as trimming the whole
append. -/
theorem lastK_append (n : ℕ) (x y : List α) :
    lastK n (lastK n x ++ y) = lastK n (x ++ y) := by
  have hx : (lastK n x).reverse = x.reverse.take n := by
    rw [lastK_reverse n x, List.reverse_reverse]
  rw [lastK_reverse n (lastK n x ++ y), lastK_reverse n (x ++ y)]
  rw [List.reverse_append, List.reverse_append, hx]
  rw [List.take_append_eq_append_take, List.take_append_eq_append_take]
  rw [List.take_take]
  rw [Nat.min_eq_left (Nat.sub_le n y.reverse.length)]

/-- Length of the kept suffix. -/
theorem lastK_length (n : ℕ) (l : List α) :
    (lastK n l).length = min l.length n := by
  simp only [lastK, List.length_drop]
  omega

/-- One history update is exactly the last-50 suffix of the appended
history. -/
theorem updateHistory_eq (h : List PerformanceMetrics) (m : PerformanceMetrics) :
    updateHistory h m = lastK 50 (h ++ [m]) := by
  simp only [updateHistory, lastK]
  by_cases hl : 50 < (h ++ [m]).length
  · rw [if_pos hl]
  · rw [if_neg hl, Nat.sub_eq_zero_of_le (Nat.le_of_not_lt hl), List.drop_zero]

/-- A history never exceeds 50 entries after an update. -/
theorem updateHistory_len_le (h : List PerformanceMetrics) (m : PerformanceMetrics) :
    (updateHistory h m).length ≤ 50 := by
  rw [updateHistory_eq, lastK_length]
  exact Nat.min_le_right _ _

/-- Folding the history update over a call sequence keeps exactly the
last 50 of the combined sequence, for every start history of at most 50
entries. -/
theorem foldl_updateHistory (ms : List PerformanceMetrics)
    (h : List PerformanceMetrics) (hh : h.length ≤ 50) :
    ms.foldl updateHistory h = lastK 50 (h ++ ms) := by
  induction ms generalizing h with
  | nil =>
    simp only [List.foldl_nil, List.append_nil, lastK]
    rw [Nat.sub_eq_zero_of_le hh, List.drop_zero]
  | cons m ms ih =>
    rw [List.foldl_cons, ih (updateHistory h m) (updateHistory_len_le h m)]
    rw [updateHistory_eq, lastK_append]
    simp [List.append_assoc]

/-- The learning loop over the agents map applies the history fold to
every agent independently. -/
theorem foldl_learnAllAgents (ms : List PerformanceMetrics)
    (A : List (String × List PerformanceMetrics)) :
    ms.foldl learnAllAgents A = A.map (fun a => (a.1, ms.foldl updateHistory a.2)) := by
  induction ms generalizing A with
  | nil => simp
  | cons m ms ih =>
    rw [List.foldl_cons, ih]
    simp [learnAllAgents, List.map_map, Function.comp]

/-- C3: after any sequence of learn calls, every registered agent
(not only the agents involved in a task) carries exactly the most
recent min(calls, 50) performance records: the common history is the
last-50 suffix of the call sequence and its length is min(calls, 50). -/
theorem C3_history_invariant (ms : List PerformanceMetrics) :
    ms.foldl learnAllAgents initialAgents
        = initialAgents.map (fun a => (a.1, lastK 50 ms))
    ∧ (lastK 50 ms).length = min ms.length 50 := by
  constructor
  · rw [foldl_learnAllAgents]
    have e : ms.foldl updateHistory [] = lastK 50 ms := by
      have h0 := foldl_updateHistory ms [] (by simp)
      simpa using h0
    simp [initialAgents, e]
  · exact lastK_length 50 ms

/-- One adapt call keeps epsilon inside [0.01, 0.3]. -/
theorem qlearningAdapt_bounds (st : QLearningState) (sr : ℚ)
    (h1 : 1/100 ≤ st.epsilon) (h2 : st.epsilon ≤ 3/10) :
    1/100 ≤ (qlearningAdapt st sr).epsilon ∧ (qlearningAdapt st sr).epsilon ≤ 3/10 := by
  unfold qlearningAdapt
  by_cases hs : sr < 3/5
  · simp only [hs, if_true]
    constructor
    · refine le_min (by norm_num) ?_
      linarith
    · exact min_le_left _ _
  · simp only [hs, if_false]
    constructor
    · exact le_max_left _ _
    · refine max_le (by norm_num) ?_
      linarith

/-- Folding adapt over any call sequence keeps epsilon inside
[0.01, 0.3], from any starting state inside the interval. -/
theorem qlearningFold_bounds (srs : List ℚ) (st : QLearningState)
    (h1 : 1/100 ≤ st.epsilon) (h2 : st.epsilon ≤ 3/10) :
    1/100 ≤ (srs.foldl qlearningAdapt st).epsilon
    ∧ (srs.foldl qlearningAdapt st).epsilon ≤ 3/10 := by
  induction srs generalizing st with
  | nil => exact ⟨h1, h2⟩
  | cons sr srs ih =>
    rw [List.foldl_cons]
    have hb := qlearningAdapt_bounds st sr h1 h2
    exact ih (qlearningAdapt st sr) hb.1 hb.2

/-- C8: from the default epsilon 0.1, epsilon stays within [0.01, 0.3]
after any sequence of adapt calls with arbitrary success rates. -/
theorem C8_epsilon_bounds (srs : List ℚ) :
    1/100 ≤ (srs.foldl qlearningAdapt qlearningDefault).epsilon
    ∧ (srs.foldl qlearningAdapt qlearningDefault).epsilon ≤ 3/10 :=
  qlearningFold_bounds srs qlearningDefault (by norm_num [qlearningDefault])
    (by norm_num [qlearningDefault])

/-- Counting over a flatMap is the sum of the per-element counts. -/
theorem countP_flatMap (p : β → Bool) (l : List α) (f : α → List β) :
    List.countP p (l.flatMap f) = (l.map (fun a => List.countP p (f a))).sum := by
  induction l with
  | nil => simp
  | cons a l ih => simp [List.flatMap_cons, List.countP_append, ih]

/-- Counting a mapped list whose every image satisfies the predicate
gives the length. -/
theorem countP_map_eq_length (p : β → Bool) (f : α → β) (l : List α)
    (h : ∀ a, p (f a) = true) : (l.map f).countP p = l.length := by
  rw [List.countP_map]
  exact List.countP_eq_length.mpr (fun a _ => h a)

/-- Counting a mapped list whose every image falsifies the predicate
gives zero. -/
theorem countP_map_eq_zero (p : β → Bool) (f : α → β) (l : List α)
    (h : ∀ a, p (f a) = false) : (l.map f).countP p = 0 := by
  rw [List.countP_map]
  refine List.countP_eq_zero.mpr (fun a _ => ?_)
  show ¬ p (f a) = true
  rw [h a]
  simp

/-- Open-port count of the hosts segment. -/
theorem hostsFindings_countP_open (hs : List (String × HostInfo)) :
    (hostsFindings hs).countP (fun f => f.ftype == "open_port")
      = (hs.map (fun hp => (hp.2.ports.filter (fun p => p.state == some "open")).length)).sum := by
  unfold hostsFindings
  rw [countP_flatMap]
  have e : ∀ hp : String × HostInfo,
      (portFindings hp.1 hp.2).countP (fun f => f.ftype == "open_port")
        = (hp.2.ports.filter (fun p => p.state == some "open")).length :=
    fun hp => countP_map_eq_length _ _ _ (fun _ => rfl)
  simp [e]

/-- The hosts segment contributes nothing to the other counts. -/
theorem hostsFindings_countP_vuln (hs : List (String × HostInfo)) :
    (hostsFindings hs).countP (fun f => f.ftype == "web_vulnerability") = 0 := by
  unfold hostsFindings
  rw [countP_flatMap]
  have e : ∀ hp : String × HostInfo,
      (portFindings hp.1 hp.2).countP (fun f => f.ftype == "web_vulnerability") = 0 :=
    fun hp => countP_map_eq_zero _ _ _ (fun _ => rfl)
  simp [e]

/-- The hosts segment contributes nothing to the path count. -/
theorem hostsFindings_countP_path (hs : List (String × HostInfo)) :
    (hostsFindings hs).countP (fun f => f.ftype == "interesting_path") = 0 := by
  unfold hostsFindings
  rw [countP_flatMap]
  have e : ∀ hp : String × HostInfo,
      (portFindings hp.1 hp.2).countP (fun f => f.ftype == "interesting_path") = 0 :=
    fun hp => countP_map_eq_zero _ _ _ (fun _ => rfl)
  simp [e]

/-- Vulnerability count of the vulnerabilities segment. -/
theorem vulnFindings_countP_vuln (vs : List VulnEntry) :
    (vulnFindings vs).countP (fun f => f.ftype == "web_vulnerability") = vs.length :=
  countP_map_eq_length _ _ _ (fun _ => rfl)

/-- The vulnerabilities segment contributes nothing to the open-port
count. -/
theorem vulnFindings_countP_open (vs : List VulnEntry) :
    (vulnFindings vs).countP (fun f => f.ftype == "open_port") = 0 :=
  countP_map_eq_zero _ _ _ (fun _ => rfl)

/-- The vulnerabilities segment contributes nothing to the path
count. -/
theorem vulnFindings_countP_path (vs : List VulnEntry) :
    (vulnFindings vs).countP (fun f => f.ftype == "interesting_path") = 0 :=
  countP_map_eq_zero _ _ _ (fun _ => rfl)

/-- Path count of the discovered-paths segment. -/
theorem pathFindings_countP_path (ps : List PathEntry) :
    (pathFindings ps).countP (fun f => f.ftype == "interesting_path")
      = (ps.filter (fun p => p.status_code == some 200)).length :=
  countP_map_eq_length _ _ _ (fun _ => rfl)

/-- The discovered-paths segment contributes nothing to the open-port
count. -/
theorem pathFindings_countP_open (ps : List PathEntry) :
    (pathFindings ps).countP (fun f => f.ftype == "open_port") = 0 :=
  countP_map_eq_zero _ _ _ (fun _ => rfl)

/-- The discovered-paths segment contributes nothing to the
vulnerability count. -/
theorem pathFindings_countP_vuln (ps : List PathEntry) :
    (pathFindings ps).countP (fun f => f.ftype == "web_vulnerability") = 0 :=
  countP_map_eq_zero _ _ _ (fun _ => rfl)

/-- The extraction owes one open_port finding per open port of a single
result. -/
theorem countP_resultFindings_open (r : ToolResult) :
    (resultFindings r).countP (fun f => f.ftype == "open_port") = openPortCount r := by
  unfold resultFindings openPortCount
  rcases r with ⟨hosts, vulns, paths⟩
  rcases hosts with _ | hs <;> rcases vulns with _ | vs <;> rcases paths with _ | ps <;>
    simp [List.countP_append, hostsFindings_countP_open, vulnFindings_countP_open,
      pathFindings_countP_open]

/-- The extraction owes one web_vulnerability finding per entry of the
vulnerabilities list of a single result. -/
theorem countP_resultFindings_vuln (r : ToolResult) :
    (resultFindings r).countP (fun f => f.ftype == "web_vulnerability") = vulnCount r := by
  unfold resultFindings vulnCount
  rcases r with ⟨hosts, vulns, paths⟩
  rcases hosts with _ | hs <;> rcases vulns with _ | vs <;> rcases paths with _ | ps <;>
    simp [List.countP_append, hostsFindings_countP_vuln, vulnFindings_countP_vuln,
      pathFindings_countP_vuln]

/-- The extraction owes one interesting_path finding per discovered
path with status code exactly 200 of a single result. -/
theorem countP_resultFindings_path (r : ToolResult) :
    (resultFindings r).countP (fun f => f.ftype == "interesting_path") = path200Count r := by
  unfold resultFindings path200Count
  rcases r with ⟨hosts, vulns, paths⟩
  rcases hosts with _ | hs <;> rcases vulns with _ | vs <;> rcases paths with _ | ps <;>
    simp [List.countP_append, hostsFindings_countP_path, vulnFindings_countP_path,
      pathFindings_countP_path]

/-- Every open_port finding of a single result carries severity
info. -/
theorem mem_resultFindings_severity (r : ToolResult) (f : Finding)
    (hf : f ∈ resultFindings r) (hft : f.ftype = "open_port") : f.severity = "info" := by
  unfold resultFindings at hf
  rcases List.mem_append.mp hf with h12 | h3
  · rcases List.mem_append.mp h12 with h1 | h2
    · rcases htrh : r.hosts with _ | hs
      · rw [htrh] at h1; simp at h1
      · rw [htrh] at h1
        unfold hostsFindings at h1
        obtain ⟨hp, _hhp, hpf⟩ := List.mem_flatMap.mp h1
        unfold portFindings at hpf
        obtain ⟨p, _hp2, hpe⟩ := List.mem_map.mp hpf
        rw [← hpe]
    · rcases htrv : r.vulnerabilities with _ | vs
      · rw [htrv] at h2; simp at h2
      · rw [htrv] at h2
        unfold vulnFindings at h2
        obtain ⟨v, _hv, hve⟩ := List.mem_map.mp h2
        rw [← hve] at hft
        have h2f : ("web_vulnerability" : String) = "open_port" := hft
        exact absurd h2f (by decide)
  · rcases htrp : r.discovered_paths with _ | ps
    · rw [htrp] at h3; simp at h3
    · rw [htrp] at h3
      unfold pathFindings at h3
      obtain ⟨p, _hp2, hpe⟩ := List.mem_map.mp h3
      rw [← hpe]

/-- All open_port findings of an extraction carry severity info. -/
theorem open_port_findings_severity (rs : List (String × ToolResult)) :
    ((extractFindingsFromResults rs).filter (fun f => f.ftype == "open_port")).all
      (fun f => f.severity == "info") = true := by
  rw [List.all_eq_true]
  intro f hf
  rw [List.mem_filter] at hf
  obtain ⟨hmem, hft⟩ := hf
  unfold extractFindingsFromResults at hmem
  obtain ⟨tr, _htr, hfr⟩ := List.mem_flatMap.mp hmem
  have : f.severity = "info" :=
    mem_resultFindings_severity tr.2 f hfr (by simpa using hft)
  simp [this]

/-- C6: from a list of tool results the extraction emits exactly one
open_port finding (severity info) per open port of a hosts map, one
web_vulnerability finding per vulnerabilities entry, and one
interesting_path finding per discovered path with status code exactly
200, dropping all other status codes; in particular a run with three
open ports and one 403 path yields exactly three open_port findings and
zero interesting_path findings. -/
theorem C6_finding_extraction (rs : List (String × ToolResult)) :
    (extractFindingsFromResults rs).countP (fun f => f.ftype == "open_port")
        = (rs.map (fun tr => openPortCount tr.2)).sum
    ∧ (extractFindingsFromResults rs).countP (fun f => f.ftype == "web_vulnerability")
        = (rs.map (fun tr => vulnCount tr.2)).sum
    ∧ (extractFindingsFromResults rs).countP (fun f => f.ftype == "interesting_path")
        = (rs.map (fun tr => path200Count tr.2)).sum
    ∧ ((extractFindingsFromResults rs).filter (fun f => f.ftype == "open_port")).all
        (fun f => f.severity == "info") = true
    ∧ (extractFindingsFromResults
          [("nmap_scan", demoNmapResult), ("gobuster_directory", demo403PathResult)]).countP
        (fun f => f.ftype == "open_port") = 3
    ∧ (extractFindingsFromResults
          [("nmap_scan", demoNmapResult), ("gobuster_directory", demo403PathResult)]).countP
        (fun f => f.ftype == "interesting_path") = 0 := by
  refine ⟨?_, ?_, ?_, open_port_findings_severity rs, by decide, by decide⟩
  · unfold extractFindingsFromResults
    rw [countP_flatMap]
    simp only [countP_resultFindings_open]
  · unfold extractFindingsFromResults
    rw [countP_flatMap]
    simp only [countP_resultFindings_vuln]
  · unfold extractFindingsFromResults
    rw [countP_flatMap]
    simp only [countP_resultFindings_path]

/-- A successful lookup means the key is among the mapped keys. -/
theorem lookup_mem_keys : ∀ (data : List (String × PValue)) (k : String) (v : PValue),
    data.lookup k = some v → k ∈ data.map Prod.fst
  | [], k, v, h => by simp [List.lookup] at h
  | (a :: tl), k, v, h => by
    rcases a with ⟨a1, a2⟩
    rw [List.lookup_cons] at h
    cases hbeq : (k == a1) with
    | true =>
      have hk : k = a1 := beq_iff_eq.mp hbeq
      simp [hk]
    | false =>
      rw [hbeq] at h
      have h2 : tl.lookup k = some v := h
      simpa using Or.inr (lookup_mem_keys tl k v h2)

/-- A key among the mapped keys looks up to some value. -/
theorem mem_keys_lookup : ∀ (data : List (String × PValue)) (k : String),
    k ∈ data.map Prod.fst → ∃ w, data.lookup k = some w
  | [], k, h => by simp at h
  | (a :: tl), k, h => by
    rcases a with ⟨a1, a2⟩
    rw [List.lookup_cons]
    cases hbeq : (k == a1) with
    | true => exact ⟨a2, rfl⟩
    | false =>
      have hk : k ≠ a1 := by
        intro he
        rw [he] at hbeq
        simp at hbeq
      have h2 : k ∈ tl.map Prod.fst := by
        rw [List.map_cons] at h
        rcases List.mem_cons.mp h with he | hm
        · exact absurd he hk
        · exact hm
      obtain ⟨w, hw⟩ := mem_keys_lookup tl k h2
      exact ⟨w, hw⟩

/-- Whenever the per-key score of a value against itself is emitted at
all, it is 1. -/
theorem pairScore_self (v : PValue) (s : ℚ) (h : pairScore v v = some s) : s = 1 := by
  cases v with
  | str a =>
    simp [pairScore] at h
    exact h.symm
  | num a =>
    simp [pairScore, sub_self, abs_zero, zero_div, sub_zero] at h
    exact h.symm
  | other => simp [pairScore] at h

/-- The per-key score of a comparable value against itself is emitted
and equals 1. -/
theorem pairScore_self_comparable (v : PValue) (hc : v.comparableP = true) :
    pairScore v v = some 1 := by
  cases v with
  | str a => simp [pairScore]
  | num a => simp [pairScore, sub_self, abs_zero, zero_div, sub_zero]
  | other => simp [PValue.comparableP] at hc

/-- A list of ones sums to its length. -/
theorem sum_eq_length_of_ones : ∀ (l : List ℚ), (∀ s ∈ l, s = 1) → l.sum = l.length
  | [], _ => by simp
  | (x :: tl), h => by
    have hx := h x (List.mem_cons_self x tl)
    have ht := sum_eq_length_of_ones tl (fun s hs => h s (List.mem_cons_of_mem x hs))
    rw [List.sum_cons, hx, ht, List.length_cons]
    push_cast
    ring

/-- C9 counterexample: a mapping holding one key whose value is neither
a string nor a numeric (here a list-like opaque value) matched against
itself has every shared key equal, yet its self-similarity is 0, not
1: every per-key comparison is skipped and the empty score list returns
0. -/
theorem C9_counterexample :
    calculateSimilarity [("ports", PValue.other)] [("ports", PValue.other)] = 0
    ∧ calculateSimilarity [("ports", PValue.other)] [("ports", PValue.other)] ≠ 1 := by
  constructor
  · rfl
  · intro h
    have h2 : (0 : ℚ) = 1 := h
    norm_num at h2

/-- C9 (amended): a pattern mapping matched against itself evaluates to
similarity exactly 1 whenever at least one of its keys holds a
comparable (string or numeric) value; keys holding other values are
skipped, and a mapping with no comparable value at all (or no keys)
evaluates to 0 instead. -/
theorem C9_self_similarity (data : List (String × PValue)) (k : String) (v : PValue)
    (hl : data.lookup k = some v) (hc : v.comparableP = true) :
    calculateSimilarity data data = 1 := by
  have hks : k ∈ data.map Prod.fst := lookup_mem_keys data k v hl
  have hdne : data ≠ [] := by
    intro he
    rw [he] at hl
    simp [List.lookup] at hl
  have hie : data.isEmpty = false := List.isEmpty_eq_false.mpr hdne
  have hcommon : (data.map Prod.fst).dedup.filter
      (fun k2 => (data.map Prod.fst).contains k2) = (data.map Prod.fst).dedup := by
    apply List.filter_eq_self.mpr
    intro a ha
    have hma : a ∈ data.map Prod.fst := List.mem_dedup.mp ha
    show (data.map Prod.fst).elem a = true
    exact List.elem_iff.mpr hma
  have hdk : k ∈ (data.map Prod.fst).dedup := List.mem_dedup.mpr hks
  have hcne : (data.map Prod.fst).dedup ≠ [] := List.ne_nil_of_mem hdk
  unfold calculateSimilarity
  rw [hie]
  rw [if_neg (by simp)]
  rw [hcommon]
  rw [if_neg (by simp [hcne])]
  set scores := (data.map Prod.fst).dedup.filterMap (fun k2 =>
    match data.lookup k2, data.lookup k2 with
    | some v1, some v2 => pairScore v1 v2
    | _, _ => none) with hscores
  have hall : ∀ s ∈ scores, s = 1 := by
    intro s hs
    rw [hscores] at hs
    obtain ⟨x, _hx, hfx⟩ := List.mem_filterMap.mp hs
    rcases hlx : data.lookup x with _ | w
    · rw [hlx] at hfx
      simp at hfx
    · rw [hlx] at hfx
      exact pairScore_self w s hfx
  have hone : (1 : ℚ) ∈ scores := by
    rw [hscores]
    refine List.mem_filterMap.mpr ⟨k, hdk, ?_⟩
    rw [hl]
    exact pairScore_self_comparable v hc
  have hsne : scores ≠ [] := List.ne_nil_of_mem hone
  rw [if_neg (by simp [hsne])]
  rw [sum_eq_length_of_ones scores hall]
  have hlen : (scores.length : ℚ) ≠ 0 := by
    have hpos : 0 < scores.length := List.length_pos.mpr hsne
    exact_mod_cast Nat.pos_iff_ne_zero.mp hpos
  exact div_self hlen

/-- Witness for the amended C9 at a concrete one-key string mapping. -/
theorem C9_self_similarity_witness :
    ([("service", PValue.str "http")].lookup "service" = some (PValue.str "http"))
    ∧ (PValue.str "http").comparableP = true
    ∧ calculateSimilarity [("service", PValue.str "http")]
        [("service", PValue.str "http")] = 1 :=
  ⟨rfl, rfl,
   C9_self_similarity [("service", PValue.str "http")] "service" (PValue.str "http") rfl rfl⟩

/-- The clamp keeps every value inside [0, 1]. -/
theorem clamp01_mem (x : ℚ) : 0 ≤ clamp01 x ∧ clamp01 x ≤ 1 :=
  ⟨le_max_left 0 _, max_le (by norm_num) (min_le_left 1 x)⟩

/-- Mutation keeps every gene inside [0, 1]: mutated genes are clamped
there and untouched genes were there already. -/
theorem mutateGenes_bounds (rg : Rng) (mr : ℚ) (genes : List ℚ) :
    ∀ (c : RandCursor), (∀ g ∈ genes, 0 ≤ g ∧ g ≤ 1) →
      ∀ g2 ∈ (mutateGenes rg mr genes c).1, 0 ≤ g2 ∧ g2 ≤ 1 := by
  induction genes with
  | nil =>
    intro c _ g2 hg2
    simp [mutateGenes] at hg2
  | cons g gs ih =>
    intro c hb g2 hg2
    simp only [mutateGenes] at hg2
    split at hg2
    · rcases List.mem_cons.mp hg2 with he | hm
      · rw [he]
        exact clamp01_mem _
      · exact ih _ (fun g3 hg3 => hb g3 (List.mem_cons_of_mem g hg3)) g2 hm
    · rcases List.mem_cons.mp hg2 with he | hm
      · rw [he]
        exact hb g (List.mem_cons_self g gs)
      · exact ih _ (fun g3 hg3 => hb g3 (List.mem_cons_of_mem g hg3)) g2 hm

/-- Fresh random genes lie inside [0, 1] when the uniform stream
does. -/
theorem randGenes_bounds (rg : Rng) (hr : UniBounded rg) :
    ∀ (n : ℕ) (c : RandCursor), ∀ g ∈ (randGenes rg n c).1, 0 ≤ g ∧ g ≤ 1 := by
  intro n
  induction n with
  | zero =>
    intro c g hg
    simp [randGenes] at hg
  | succ n ih =>
    intro c g hg
    simp only [randGenes, Rng.nextUni] at hg
    rcases List.mem_cons.mp hg with he | hm
    · rw [he]
      exact ⟨(hr _).1, le_of_lt (hr _).2⟩
    · exact ih _ g hm

/-- The initial population has the requested size and bounded genes. -/
theorem initPopulation_spec (rg : Rng) (cfg : GAConfig) (hr : UniBounded rg) :
    ∀ (n : ℕ) (c : RandCursor),
      (initPopulation rg cfg n c).1.length = n
      ∧ GenesIn01 (initPopulation rg cfg n c).1 := by
  intro n
  induction n with
  | zero =>
    intro c
    constructor
    · rfl
    · intro ind hind
      simp [initPopulation] at hind
  | succ n ih =>
    intro c
    constructor
    · simp only [initPopulation, List.length_cons]
      rw [(ih _).1]
    · intro ind hind g hg
      simp only [initPopulation] at hind
      rcases List.mem_cons.mp hind with he | hm
      · rw [he] at hg
        exact randGenes_bounds rg hr cfg.gene_count _ g hg
      · exact (ih _).2 ind hm g hg

/-- The genes of an offspring of a nonempty bounded survivor pool are
bounded. -/
theorem gaChild_bounds (rg : Rng) (cfg : GAConfig) (survivors : List Individual)
    (c : RandCursor) (hne : survivors ≠ []) (hb : GenesIn01 survivors) :
    ∀ g ∈ (gaChild rg cfg survivors c).1.genes, 0 ≤ g ∧ g ≤ 1 := by
  intro g hg
  simp only [gaChild, Rng.nextChoice] at hg
  have hlt : rg.idxStream c.i % survivors.length < survivors.length :=
    Nat.mod_lt _ (List.length_pos.mpr hne)
  have hparent : survivors.getD (rg.idxStream c.i % survivors.length) { genes := [] }
      ∈ survivors := by
    rw [List.getD_eq_getElem survivors { genes := [] } hlt]
    exact List.getElem_mem hlt
  exact mutateGenes_bounds rg cfg.mutation_rate _ _
    (hb _ hparent) g hg

/-- The refill loop of a nonempty bounded survivor pool always
succeeds, producing exactly the requested number of offspring, all with
bounded genes. -/
theorem refillPopulation_spec (rg : Rng) (cfg : GAConfig) (survivors : List Individual)
    (hne : survivors ≠ []) (hb : GenesIn01 survivors) :
    ∀ (n : ℕ) (c : RandCursor),
      ∃ off c2, refillPopulation rg cfg survivors n c = some (off, c2)
        ∧ off.length = n ∧ GenesIn01 off := by
  intro n
  induction n with
  | zero =>
    intro c
    refine ⟨[], c, rfl, rfl, ?_⟩
    intro ind hind
    simp at hind
  | succ n ih =>
    intro c
    obtain ⟨off, c2, hoff, hlen, hbo⟩ := ih (gaChild rg cfg survivors c).2
    have hie : survivors.isEmpty = false := List.isEmpty_eq_false.mpr hne
    refine ⟨(gaChild rg cfg survivors c).1 :: off, c2, ?_, ?_, ?_⟩
    · rw [refillPopulation, if_neg (by rw [hie]; simp)]
      show (match refillPopulation rg cfg survivors n (gaChild rg cfg survivors c).2 with
        | some (rest, c3) => some ((gaChild rg cfg survivors c).1 :: rest, c3)
        | none => none) = some ((gaChild rg cfg survivors c).1 :: off, c2)
      rw [hoff]
    · simp [hlen]
    · intro ind hind g hg
      rcases List.mem_cons.mp hind with he | hm
      · rw [he] at hg
        exact gaChild_bounds rg cfg survivors c hne hb g hg
      · exact hbo ind hm g hg

/-- The score-sort-select-refill body of a generation preserves the
population size and gene bounds, for any population of the configured
size with bounded genes, whenever the configured size is at least 2
(so that the survivor pool is nonempty). -/
theorem evolveFrom_spec (rg : Rng) (cfg : GAConfig) (hN : 2 ≤ cfg.population_size)
    (pop0 : List Individual) (c0 : RandCursor)
    (hlen : pop0.length = cfg.population_size) (hb : GenesIn01 pop0) :
    ∃ newpop c1, evolveFrom rg cfg pop0 c0 = some (newpop, c1)
      ∧ newpop.length = cfg.population_size ∧ GenesIn01 newpop := by
  have hslen : (sortByFitnessDesc (scorePopulation pop0)).length = cfg.population_size := by
    rw [sortByFitnessDesc, List.length_mergeSort, scorePopulation, List.length_map, hlen]
  have hsb : GenesIn01 (sortByFitnessDesc (scorePopulation pop0)) := by
    intro ind hind g hg
    have hms : ind ∈ scorePopulation pop0 := List.mem_mergeSort.mp hind
    obtain ⟨ind0, hind0, he⟩ := List.mem_map.mp hms
    apply hb ind0 hind0
    rw [← he] at hg
    exact hg
  have hsvlen :
      ((sortByFitnessDesc (scorePopulation pop0)).take (cfg.population_size / 2)).length
        = cfg.population_size / 2 := by
    rw [List.length_take, hslen]
    exact Nat.min_eq_left (Nat.div_le_self _ _)
  have hsvne :
      (sortByFitnessDesc (scorePopulation pop0)).take (cfg.population_size / 2) ≠ [] := by
    apply List.length_pos.mp
    rw [hsvlen]
    omega
  have hsvb :
      GenesIn01 ((sortByFitnessDesc (scorePopulation pop0)).take (cfg.population_size / 2)) :=
    fun ind hind => hsb ind (List.mem_of_mem_take hind)
  obtain ⟨off, c1, hoff, holen, hob⟩ := refillPopulation_spec rg cfg _ hsvne hsvb
    (cfg.population_size
      - ((sortByFitnessDesc (scorePopulation pop0)).take (cfg.population_size / 2)).length) c0
  refine ⟨(sortByFitnessDesc (scorePopulation pop0)).take (cfg.population_size / 2) ++ off,
    c1, ?_, ?_, ?_⟩
  · show (match refillPopulation rg cfg
        ((sortByFitnessDesc (scorePopulation pop0)).take (cfg.population_size / 2))
        (cfg.population_size
          - ((sortByFitnessDesc (scorePopulation pop0)).take (cfg.population_size / 2)).length)
        c0 with
      | some (offspring, c1) =>
          some ((sortByFitnessDesc (scorePopulation pop0)).take (cfg.population_size / 2)
            ++ offspring, c1)
      | none => none)
      = some ((sortByFitnessDesc (scorePopulation pop0)).take (cfg.population_size / 2)
          ++ off, c1)
    rw [hoff]
  · rw [List.length_append, holen, hsvlen]
    omega
  · intro ind hind
    rcases List.mem_append.mp hind with hm | hm
    · exact hsvb ind hm
    · exact hob ind hm

/-- One generation preserves the invariant: from an empty or invariant
population, evolve succeeds, the new population has the configured size
with bounded genes, and the generation counter grows by one. -/
theorem evolveGeneration_spec (rg : Rng) (cfg : GAConfig) (hr : UniBounded rg)
    (hN : 2 ≤ cfg.population_size) (st : GAState) (c : RandCursor)
    (hinv : st.population = []
      ∨ (st.population.length = cfg.population_size ∧ GenesIn01 st.population)) :
    ∃ st1 c1, evolveGeneration rg cfg st c = some (st1, c1)
      ∧ st1.population.length = cfg.population_size ∧ GenesIn01 st1.population
      ∧ st1.generation = st.generation + 1 := by
  obtain ⟨pop, gen⟩ := st
  rcases pop with _ | ⟨p, ps⟩
  · obtain ⟨hleni, hbi⟩ := initPopulation_spec rg cfg hr cfg.population_size c
    obtain ⟨newpop, c1, hev, hlen1, hb1⟩ := evolveFrom_spec rg cfg hN
      (initPopulation rg cfg cfg.population_size c).1
      (initPopulation rg cfg cfg.population_size c).2 hleni hbi
    refine ⟨GAState.mk newpop (gen + 1), c1, ?_, hlen1, hb1, rfl⟩
    show (match evolveFrom rg cfg (initPopulation rg cfg cfg.population_size c).1
        (initPopulation rg cfg cfg.population_size c).2 with
      | some (newpop2, c2) => some (GAState.mk newpop2 (gen + 1), c2)
      | none => none)
      = some (GAState.mk newpop (gen + 1), c1)
    rw [hev]
  · rcases hinv with he | ⟨hlen, hb⟩
    · simp at he
    · obtain ⟨newpop, c1, hev, hlen1, hb1⟩ := evolveFrom_spec rg cfg hN (p :: ps) c hlen hb
      refine ⟨GAState.mk newpop (gen + 1), c1, ?_, hlen1, hb1, rfl⟩
      show (match evolveFrom rg cfg (p :: ps) c with
        | some (newpop2, c2) => some (GAState.mk newpop2 (gen + 1), c2)
        | none => none)
        = some (GAState.mk newpop (gen + 1), c1)
      rw [hev]

/-- Any successful generation bumps the counter by exactly one. -/
theorem evolveGeneration_gen (rg : Rng) (cfg : GAConfig) (st : GAState) (c : RandCursor)
    (st1 : GAState) (c1 : RandCursor)
    (h : evolveGeneration rg cfg st c = some (st1, c1)) :
    st1.generation = st.generation + 1 := by
  obtain ⟨pop, gen⟩ := st
  rcases pop with _ | ⟨p, ps⟩
  · have h2 : (match evolveFrom rg cfg (initPopulation rg cfg cfg.population_size c).1
        (initPopulation rg cfg cfg.population_size c).2 with
      | some (newpop2, c2) => some (GAState.mk newpop2 (gen + 1), c2)
      | none => none) = some (st1, c1) := h
    rcases hev : evolveFrom rg cfg (initPopulation rg cfg cfg.population_size c).1
        (initPopulation rg cfg cfg.population_size c).2 with _ | ⟨newpop2, c2⟩ <;>
      rw [hev] at h2
    · simp at h2
    · have hp : GAState.mk newpop2 (gen + 1) = st1 :=
        congrArg Prod.fst (Option.some.inj h2)
      rw [← hp]
  · have h2 : (match evolveFrom rg cfg (p :: ps) c with
      | some (newpop2, c2) => some (GAState.mk newpop2 (gen + 1), c2)
      | none => none) = some (st1, c1) := h
    rcases hev : evolveFrom rg cfg (p :: ps) c with _ | ⟨newpop2, c2⟩ <;> rw [hev] at h2
    · simp at h2
    · have hp : GAState.mk newpop2 (gen + 1) = st1 :=
        congrArg Prod.fst (Option.some.inj h2)
      rw [← hp]

/-- One adapt call preserves the invariant and runs exactly 5
generations. -/
theorem gaAdapt_spec (rg : Rng) (cfg : GAConfig) (hr : UniBounded rg)
    (hN : 2 ≤ cfg.population_size) (st : GAState) (c : RandCursor)
    (hinv : st.population = []
      ∨ (st.population.length = cfg.population_size ∧ GenesIn01 st.population)) :
    ∃ st1 c1, gaAdapt rg cfg st c = some (st1, c1)
      ∧ st1.population.length = cfg.population_size ∧ GenesIn01 st1.population
      ∧ st1.generation = st.generation + 5 := by
  obtain ⟨s1, c1, h1, hl1, hb1, hg1⟩ := evolveGeneration_spec rg cfg hr hN st c hinv
  obtain ⟨s2, c2, h2, hl2, hb2, hg2⟩ :=
    evolveGeneration_spec rg cfg hr hN s1 c1 (Or.inr ⟨hl1, hb1⟩)
  obtain ⟨s3, c3, h3, hl3, hb3, hg3⟩ :=
    evolveGeneration_spec rg cfg hr hN s2 c2 (Or.inr ⟨hl2, hb2⟩)
  obtain ⟨s4, c4, h4, hl4, hb4, hg4⟩ :=
    evolveGeneration_spec rg cfg hr hN s3 c3 (Or.inr ⟨hl3, hb3⟩)
  obtain ⟨s5, c5, h5, hl5, hb5, hg5⟩ :=
    evolveGeneration_spec rg cfg hr hN s4 c4 (Or.inr ⟨hl4, hb4⟩)
  have hne : s5.population ≠ [] := by
    intro he
    rw [he] at hl5
    simp at hl5
    omega
  obtain ⟨b, hbm⟩ : ∃ b, maxByFitness s5.population = some b := by
    rcases hp : s5.population with _ | ⟨x, xs⟩
    · exact absurd hp hne
    · exact ⟨_, rfl⟩
  refine ⟨s5, c5, ?_, hl5, hb5, by omega⟩
  simp only [gaAdapt, Option.bind_eq_bind, h1, h2, h3, h4, h5, hbm, Option.some_bind]

/-- Any run of n+1 adapt calls from the fresh state succeeds and ends
with the configured population size, bounded genes, and generation
counter 5(n+1). -/
theorem gaIterate_spec (rg : Rng) (cfg : GAConfig) (hr : UniBounded rg)
    (hN : 2 ≤ cfg.population_size) :
    ∀ (n : ℕ) (st : GAState) (c : RandCursor),
      (st.population = []
        ∨ (st.population.length = cfg.population_size ∧ GenesIn01 st.population)) →
      ∃ st1 c1, gaIterate rg cfg (n+1) st c = some (st1, c1)
        ∧ st1.population.length = cfg.population_size ∧ GenesIn01 st1.population
        ∧ st1.generation = st.generation + 5 * (n+1) := by
  intro n
  induction n with
  | zero =>
    intro st c hinv
    obtain ⟨s1, c1, h1, hl, hb, hg⟩ := gaAdapt_spec rg cfg hr hN st c hinv
    refine ⟨s1, c1, ?_, hl, hb, by omega⟩
    simp only [gaIterate, h1]
  | succ n ih =>
    intro st c hinv
    obtain ⟨s1, c1, h1, hl, hb, hg⟩ := gaAdapt_spec rg cfg hr hN st c hinv
    obtain ⟨s2, c2, h2, hl2, hb2, hg2⟩ := ih s1 c1 (Or.inr ⟨hl, hb⟩)
    refine ⟨s2, c2, ?_, hl2, hb2, by omega⟩
    rw [gaIterate, h1]
    exact h2

/-- C7: under any draw streams whose uniform draws lie in [0, 1) and
any configured population size of at least 2 (the supervisor uses 20),
after any number of adapt calls from the fresh optimizer the population
size equals the configured population_size, every gene of every
individual lies in [0, 1], and each adapt call runs exactly 5
generations, growing the generation counter by 5 per call. -/
theorem C7_ga_invariants (rg : Rng) (cfg : GAConfig) (c : RandCursor) (n : ℕ)
    (hr : UniBounded rg) (hN : 2 ≤ cfg.population_size) :
    (∃ st1 c1, gaIterate rg cfg (n+1) {} c = some (st1, c1)
      ∧ st1.population.length = cfg.population_size
      ∧ GenesIn01 st1.population
      ∧ st1.generation = 5 * (n+1))
    ∧ (∀ (st0 : GAState) (c0 : RandCursor) (st1 : GAState) (c1 : RandCursor),
        gaAdapt rg cfg st0 c0 = some (st1, c1) →
        st1.generation = st0.generation + 5) := by
  constructor
  · obtain ⟨st1, c1, h, hl, hb, hg⟩ := gaIterate_spec rg cfg hr hN n {} c (Or.inl rfl)
    exact ⟨st1, c1, h, hl, hb, by simpa using hg⟩
  · intro st0 c0 st1 c1 h
    unfold gaAdapt at h
    simp only [Option.bind_eq_bind] at h
    rcases h1 : evolveGeneration rg cfg st0 c0 with _ | ⟨s1, c1x⟩ <;> rw [h1] at h
    · simp at h
    rcases h2 : evolveGeneration rg cfg s1 c1x with _ | ⟨s2, c2x⟩ <;>
      simp only [Option.some_bind] at h <;> rw [h2] at h
    · simp at h
    rcases h3 : evolveGeneration rg cfg s2 c2x with _ | ⟨s3, c3x⟩ <;>
      simp only [Option.some_bind] at h <;> rw [h3] at h
    · simp at h
    rcases h4 : evolveGeneration rg cfg s3 c3x with _ | ⟨s4, c4x⟩ <;>
      simp only [Option.some_bind] at h <;> rw [h4] at h
    · simp at h
    rcases h5 : evolveGeneration rg cfg s4 c4x with _ | ⟨s5, c5x⟩ <;>
      simp only [Option.some_bind] at h <;> rw [h5] at h
    · simp at h
    rcases hbm : maxByFitness s5.population with _ | b <;>
      simp only [Option.some_bind] at h <;> rw [hbm] at h
    · simp at h
    simp only [Option.some_bind] at h
    have hst : s5 = st1 := congrArg Prod.fst (Option.some.inj h)
    have e1 := evolveGeneration_gen rg cfg st0 c0 s1 c1x h1
    have e2 := evolveGeneration_gen rg cfg s1 c1x s2 c2x h2
    have e3 := evolveGeneration_gen rg cfg s2 c2x s3 c3x h3
    have e4 := evolveGeneration_gen rg cfg s3 c3x s4 c4x h4
    have e5 := evolveGeneration_gen rg cfg s4 c4x s5 c5x h5
    rw [← hst]
    omega

/-- Witness for C7 at the deterministic draw streams and the small
2-individual configuration, after one adapt call. -/
theorem C7_ga_invariants_witness :
    UniBounded halfRng ∧ 2 ≤ smallGAConfig.population_size
    ∧ (∃ st1 c1, gaIterate halfRng smallGAConfig 1 {} {} = some (st1, c1)
        ∧ st1.population.length = smallGAConfig.population_size
        ∧ GenesIn01 st1.population
        ∧ st1.generation = 5 * 1)
    ∧ (∀ (st0 : GAState) (c0 : RandCursor) (st1 : GAState) (c1 : RandCursor),
        gaAdapt halfRng smallGAConfig st0 c0 = some (st1, c1) →
        st1.generation = st0.generation + 5) := by
  have hr : UniBounded halfRng := by
    intro n
    constructor <;> norm_num [halfRng]
  have hN : 2 ≤ smallGAConfig.population_size := by norm_num [smallGAConfig]
  have h := C7_ga_invariants halfRng smallGAConfig {} 0 hr hN
  exact ⟨hr, hN, h.1, h.2⟩

end KaliAgents
